import Mathlib

/-!
Shallow embedding of the name-matching and valuation-aggregation pipeline of
`src/app.py` (the "Dynasty Dash" Streamlit script), together with theorems
settling the specification claims about it.

Conventions of the embedding:
* Python `float` arithmetic is modelled by `ℚ` (all constants appearing in the
  claims are exactly representable).
* Python exceptions are modelled by `Except PyErr` / `Option`: a Python value
  of `None` (or any non-string handed to a string-expecting routine) is
  modelled by `Option.none` where relevant.
* A pandas `DataFrame` of scraped valuation rows is modelled by a
  `List ValuationRecord` in row order; the `team_value_df` of match results is
  a `List MatchRow` in row order.
* Python string methods are re-implemented structurally over `Char` lists so
  that all definitions compute; `str.lower` is modelled on the ASCII range
  (the only range the scraped data uses).
-/

/-- Python exceptions that the modelled code can raise. -/
inductive PyErr where
  | indexError
  | keyError
  deriving DecidableEq

/-- One scraped valuation row, as produced by `get_all_ktc_players_paginated`:
all fields are raw strings (`Age` like `"25.7 y.o."`, `KTC_Value` like
`"9,500"`), unparsed until needed. -/
structure ValuationRecord where
  Rank : String
  Name : String
  Team : String
  Position : String
  Age : String
  KTC_Value : String
  deriving DecidableEq

/-- One row of `your_team_value_data` / `team_value_df`: a roster player paired
with either the fields of a matched `ValuationRecord` or the "No Match"
sentinel, in which case `Position`/`KTC_Value`/`Age` hold the Python `None`,
modelled `none`. -/
structure MatchRow where
  Player : String
  KTC_Name : String
  Position : Option String
  KTC_Value : Option String
  Age : Option String
  deriving DecidableEq

/-- Python `str.strip()` with no argument: remove leading and trailing
whitespace. -/
def pystrip (s : String) : String :=
  ⟨((s.data.dropWhile Char.isWhitespace).reverse.dropWhile Char.isWhitespace).reverse⟩

/-- Python `str.lower()` restricted to the ASCII range: lowercase every
character. -/
def pylower (s : String) : String :=
  ⟨s.data.map Char.toLower⟩

/-- Helper of `pysplit`: split a character list on runs of whitespace,
accumulating the current word in reverse in `acc`. -/
def pysplitAux : List Char → List Char → List String
  | [], acc => if acc.isEmpty then [] else [⟨acc.reverse⟩]
  | c :: rest, acc =>
    if c.isWhitespace then
      if acc.isEmpty then pysplitAux rest [] else (⟨acc.reverse⟩ : String) :: pysplitAux rest []
    else pysplitAux rest (c :: acc)

/-- Python `str.split()` with no argument: split on runs of whitespace,
discarding empty pieces. -/
def pysplit (s : String) : List String :=
  pysplitAux s.data []

/-- Python `str.replace(",", "")`: remove every comma. -/
def stripCommas (s : String) : String :=
  ⟨s.data.filter (fun c => c ≠ ',')⟩

/-- `normalize_name` from `src/app.py`:

```python
def normalize_name(name):
    parts = name.strip().lower().split()
    first, last = parts[0], parts[-1] if len(parts) > 1 else ""
    return first, last
```

The conditional expression guards only `parts[-1]`; `parts[0]` is evaluated
unconditionally, so when `parts` is empty (an input with no non-whitespace
character) the code raises `IndexError`, modelled here as `none`.  When
`parts = first :: rest` the result is `(first, parts[-1] if len(parts) > 1
else "")`; note that `rest.getLastD ""` equals the last element of `parts`
when `rest` is nonempty, and `""` when `parts` has a single element. -/
def normalize_name (name : String) : Option (String × String) :=
  match pysplit (pylower (pystrip name)) with
  | [] => none
  | first :: rest => some (first, rest.getLastD "")

/-- Numeric value of a list of decimal digit characters, most significant
first (the way `int` and `float` read a digit run). -/
def digitsToNat (l : List Char) : Nat :=
  l.foldl (fun a c => 10 * a + (c.toNat - 48)) 0

/-- The regex search of `parse_age`, the Python pattern
`re.search(r"(\d+(\.\d+)?)", age_str)`: scan for the leftmost position where
a digit occurs, take the maximal digit run there, then optionally a dot
followed by a further nonempty maximal digit run.  Returns the integer-part
digits and the fractional-part digits of group 1, or `none` when the string
holds no digit. -/
def reSearchNum : List Char → Option (List Char × List Char)
  | [] => none
  | c :: rest =>
    if c.isDigit then
      let ip := (c :: rest).takeWhile Char.isDigit
      match (c :: rest).dropWhile Char.isDigit with
      | '.' :: r2 =>
        let fp := r2.takeWhile Char.isDigit
        if fp.isEmpty then some (ip, []) else some (ip, fp)
      | _ => some (ip, [])
    else reSearchNum rest

/-- Rational value of a matched numeric substring with integer-part digits
`ip` and fractional-part digits `fp` (the `float(match.group(1))` step). -/
def numValue (ip fp : List Char) : ℚ :=
  (digitsToNat ip : ℚ) + (digitsToNat fp : ℚ) / (10 : ℚ) ^ fp.length

/-- `parse_age` from `src/app.py`:

```python
def parse_age(age_str: str) -> float:
    if not isinstance(age_str, str):
        return 0.0
    match = re.search(r"(\d+(\.\d+)?)", age_str)
    if match:
        return float(match.group(1))
    return 0.0
```

A non-string input (in the pipeline: the Python `None` stored in a "No
Match" row) is modelled by `none` and yields `0.0`. -/
def parse_age (age_str : Option String) : ℚ :=
  match age_str with
  | none => 0
  | some s =>
    match reSearchNum s.data with
    | none => 0
    | some (ip, fp) => numValue ip fp

/-- A parsed Python float literal: sign, integer-part digits, fractional-part
digits, optional exponent (sign and digits). -/
structure FloatLit where
  neg : Bool
  ip : List Char
  fp : List Char
  ex : Option (Bool × List Char)
  deriving DecidableEq

/-- Syntactic part of the Python builtin `float(str)` on an already stripped
string: optional sign, digits with optional fraction (at least one digit
overall), optional exponent, and nothing else.  Modelled from the decimal
forms accepted by the builtin; the special forms `inf`/`nan` and underscore
digit grouping are outside the model (the pipeline only feeds it
comma-grouped integers or arbitrary junk). -/
def pyFloatParse (l : List Char) : Option FloatLit :=
  let sl : Bool × List Char :=
    match l with
    | '+' :: r => (false, r)
    | '-' :: r => (true, r)
    | _ => (false, l)
  let ip := sl.2.takeWhile Char.isDigit
  let r1 := sl.2.dropWhile Char.isDigit
  let fr : List Char × List Char :=
    match r1 with
    | '.' :: r => (r.takeWhile Char.isDigit, r.dropWhile Char.isDigit)
    | _ => ([], r1)
  if ip.isEmpty ∧ fr.1.isEmpty then none
  else
    match fr.2 with
    | [] => some ⟨sl.1, ip, fr.1, none⟩
    | e :: r3 =>
      if e = 'e' ∨ e = 'E' then
        let el : Bool × List Char :=
          match r3 with
          | '+' :: r => (false, r)
          | '-' :: r => (true, r)
          | _ => (false, r3)
        let ed := el.2.takeWhile Char.isDigit
        if ed.isEmpty ∨ ¬(el.2.dropWhile Char.isDigit).isEmpty then none
        else some ⟨sl.1, ip, fr.1, some (el.1, ed)⟩
      else none

/-- Numeric value of a parsed Python float literal. -/
def pyFloatVal (f : FloatLit) : ℚ :=
  (if f.neg then (-1 : ℚ) else 1) * (numValue f.ip f.fp) *
    (match f.ex with
     | none => 1
     | some (eneg, ds) =>
       if eneg then ((10 : ℚ) ^ digitsToNat ds)⁻¹ else (10 : ℚ) ^ digitsToNat ds)

/-- The Python builtin `float(str)`: strip surrounding whitespace, then parse
a float literal; `none` models the `ValueError` raised on failure. -/
def float_py (s : String) : Option ℚ :=
  (pyFloatParse (pystrip s).data).map pyFloatVal

/-- `safe_float` from `src/app.py`:

```python
def safe_float(v):
    try:
        return float(v.replace(",", ""))
    except:
        return 0.0
```

The input `none` models the Python `None` stored in a "No Match" row, on
which `.replace` raises `AttributeError`, caught by the bare `except`; a
`ValueError` from `float` is caught the same way. -/
def safe_float (v : Option String) : ℚ :=
  match v with
  | none => 0
  | some s =>
    match float_py (stripCommas s) with
    | none => 0
    | some q => q

/-- The association list modelling the Python dict `ktc_name_map`
(insertion order preserved; lookups are last-wins, matching dict
overwrites). -/
abbrev NameMap := List ((String × String) × ValuationRecord)

/-- Python dict lookup on the insertion list: the value of the LAST binding
of the key, since a later duplicate key overwrites an earlier one. -/
def dictGet (m : NameMap) (k : String × String) : Option ValuationRecord :=
  (m.reverse.find? (fun kv => decide (kv.1 = k))).map (fun kv => kv.2)

/-- The dict comprehension of `src/app.py`:

```python
ktc_name_map = {
    normalize_name(row["Name"]): row
    for _, row in ktc_df.iterrows()
}
```

`normalize_name` can raise `IndexError` (blank name), which aborts the
comprehension. -/
def ktc_name_map : List ValuationRecord → Except PyErr NameMap
  | [] => .ok []
  | r :: rest =>
    match normalize_name r.Name with
    | none => .error PyErr.indexError
    | some k =>
      match ktc_name_map rest with
      | .error e => .error e
      | .ok m => .ok ((k, r) :: m)

/-- Helper of `extractOne`: Python `max` over the remaining scored choices,
keeping the first-seen choice on ties (a later choice replaces the current
best only on a strictly greater score). -/
def extractOneAux (scorer : String → String → Nat) (q : String)
    (best : String × Nat) : List String → String × Nat
  | [] => best
  | c :: cs =>
    if best.2 < scorer q c then extractOneAux scorer q (c, scorer q c) cs
    else extractOneAux scorer q best cs

/-- `fuzzywuzzy.process.extractOne(query, choices)`: `none` on an empty
choice list, otherwise the highest-scoring choice together with its score
(first-seen choice on ties).  The similarity scorer itself is a third-party
token-based routine, kept abstract as a parameter `scorer`. -/
def extractOne (scorer : String → String → Nat) (q : String) :
    List String → Option (String × Nat)
  | [] => none
  | c :: cs => some (extractOneAux scorer q (c, scorer q c) cs)

/-- A matched row of `your_team_value_data`: the roster name together with
the fields of the matched `ValuationRecord`. -/
def matchedRow (p : String) (r : ValuationRecord) : MatchRow :=
  ⟨p, r.Name, some r.Position, some r.KTC_Value, some r.Age⟩

/-- The "No Match" sentinel row of `your_team_value_data`:
`Position`/`KTC_Value`/`Age` hold the Python `None`. -/
def noMatchRow (p : String) : MatchRow :=
  ⟨p, "No Match", none, none, none⟩

/-- One iteration of the roster matching loop of `src/app.py` (lines
257-287): exact lookup in `ktc_name_map` first, fuzzy fallback second.
Error cases of the Python code, all modelled:
* `normalize_name(p_name)` raises `IndexError` on a blank name;
* `ktc_df["Name"]` raises `KeyError` when the valuation frame is empty
  (an empty `pd.DataFrame` has no columns) — reached before `extractOne`;
* the unreachable inner `none` arm stands for the unpacking failure on the
  `None` returned by `extractOne` for an empty choice list (cannot occur:
  the frame was just checked nonempty);
* `.iloc[0]` cannot fail since the best name is drawn from the list itself
  (the unreachable `find?` arm).
The acceptance test is the Python `score and score > 80`: a falsy (zero)
score short-circuits, otherwise the score must strictly exceed 80. -/
def matchPlayer (scorer : String → String → Nat) (kmap : NameMap)
    (ktc : List ValuationRecord) (p_name : String) : Except PyErr MatchRow :=
  match normalize_name p_name with
  | none => .error PyErr.indexError
  | some key =>
    match dictGet kmap key with
    | some r => .ok (matchedRow p_name r)
    | none =>
      if ktc.isEmpty then .error PyErr.keyError
      else
        match extractOne scorer p_name (ktc.map ValuationRecord.Name) with
        | none => .error PyErr.keyError
        | some (bn, sc) =>
          if sc ≠ 0 ∧ 80 < sc then
            match ktc.find? (fun r => decide (r.Name = bn)) with
            | some r => .ok (matchedRow p_name r)
            | none => .error PyErr.indexError
          else .ok (noMatchRow p_name)

/-- The roster matching loop body: one `MatchRow` appended per roster player,
in roster order; a raised exception aborts the loop (and the run). -/
def matchLoopAux (scorer : String → String → Nat) (kmap : NameMap)
    (ktc : List ValuationRecord) : List String → Except PyErr (List MatchRow)
  | [] => .ok []
  | p :: ps =>
    match matchPlayer scorer kmap ktc p with
    | .error e => .error e
    | .ok row =>
      match matchLoopAux scorer kmap ktc ps with
      | .error e => .error e
      | .ok rows => .ok (row :: rows)

/-- The full matching phase: build `ktc_name_map` from the valuation rows,
then run the roster loop. -/
def matchLoop (scorer : String → String → Nat) (roster : List String)
    (ktc : List ValuationRecord) : Except PyErr (List MatchRow) :=
  match ktc_name_map ktc with
  | .error e => .error e
  | .ok kmap => matchLoopAux scorer kmap ktc roster

/-- The `Value_Numeric` column: `team_value_df["KTC_Value"].apply(safe_float)`. -/
def valueNumeric (r : MatchRow) : ℚ := safe_float r.KTC_Value

/-- The `Age_Numeric` column: `team_value_df["Age"].apply(parse_age)`. -/
def ageNumeric (r : MatchRow) : ℚ := parse_age r.Age

/-- `team_value_df["Value_Numeric"].sum()` (pandas sum of an empty column is
0). -/
def totalValue (rows : List MatchRow) : ℚ :=
  (rows.map valueNumeric).sum

/-- `team_value_df["Age_Numeric"].mean()`: pandas mean of an empty column is
`NaN`, modelled `none`; every comparison against `NaN` is false, which
`classify_team` reproduces in its `none` arm. -/
def avgAge (rows : List MatchRow) : Option ℚ :=
  if rows.length = 0 then none
  else some ((rows.map ageNumeric).sum / (rows.length : ℚ))

/-- `classify_team` from `src/app.py`:

```python
def classify_team(team_value_df: pd.DataFrame) -> str:
    total_ktc = team_value_df["Value_Numeric"].sum()
    if "Age_Numeric" not in team_value_df.columns:
        team_value_df["Age_Numeric"] = team_value_df["Age"].apply(parse_age)
    avg_age = team_value_df["Age_Numeric"].mean()
    if total_ktc > 110000 and avg_age > 25:
        return "Contender"
    elif total_ktc < 90000 and avg_age < 24:
        return "Rebuild"
    else:
        return "Tweener"
```

At its call site the `Age_Numeric` column is always absent, so it is always
computed from the `Age` column via `parse_age`.  For an empty frame the mean
is `NaN` and both guards are false, giving `"Tweener"`. -/
def classify_team (rows : List MatchRow) : String :=
  match avgAge rows with
  | none => "Tweener"
  | some a =>
    if totalValue rows > 110000 ∧ a > 25 then "Contender"
    else if totalValue rows < 90000 ∧ a < 24 then "Rebuild"
    else "Tweener"

/-- A concrete valuation row used by witnesses. -/
def recJJ : ValuationRecord :=
  ⟨"1", "Justin Jefferson", "MIN", "WR", "24.1 y.o.", "9,500"⟩

/-- A concrete match row realising the "Contender" scenario of the claims:
value 120000, age 26. -/
def rowContender : MatchRow :=
  ⟨"A", "A", some "QB", some "120,000", some "26.0 y.o."⟩

/-- A concrete match row realising the "Rebuild" scenario of the claims:
value 80000, age 22. -/
def rowRebuild : MatchRow :=
  ⟨"B", "B", some "RB", some "80,000", some "22.0 y.o."⟩

/-- A concrete match row realising the "Tweener" scenario of the claims:
value 100000, age 25. -/
def rowTweener : MatchRow :=
  ⟨"C", "C", some "WR", some "100,000", some "25.0 y.o."⟩

/-- A concrete match row used by the witness of the classification theorem:
value 115000, age 27. -/
def rowContenderW : MatchRow :=
  ⟨"D", "D", some "TE", some "115,000", some "27.0 y.o."⟩

/-- Rewriting lemma: `parse_age` on a string whose regex search yields the
digit groups `ip`, `fp`. -/
theorem parse_age_eval (s : String) (ip fp : List Char)
    (h : reSearchNum s.data = some (ip, fp)) :
    parse_age (some s) = numValue ip fp := by
  simp [parse_age, h]

/-- Rewriting lemma: `parse_age` on a string whose regex search fails. -/
theorem parse_age_of_search_none (s : String) (h : reSearchNum s.data = none) :
    parse_age (some s) = 0 := by
  simp [parse_age, h]

/-- The regex search fails on a string without digits. -/
theorem reSearchNum_of_no_digit (l : List Char) (h : ∀ c ∈ l, c.isDigit = false) :
    reSearchNum l = none := by
  induction l with
  | nil => rfl
  | cons c rest ih =>
    have hc := h c (List.mem_cons_self c rest)
    simp only [reSearchNum, hc, Bool.false_eq_true, if_false]
    exact ih (fun x hx => h x (List.mem_cons_of_mem c hx))

/-- The value of a matched numeric substring is non-negative: both digit
groups read as non-negative naturals. -/
theorem numValue_nonneg (ip fp : List Char) : 0 ≤ numValue ip fp := by
  unfold numValue
  positivity

/-- Rewriting lemma: `safe_float` on a string whose comma-stripped form
parses as the float literal `f`. -/
theorem safe_float_eval (s : String) (f : FloatLit)
    (h : pyFloatParse (pystrip (stripCommas s)).data = some f) :
    safe_float (some s) = pyFloatVal f := by
  simp [safe_float, float_py, h]

/-- Rewriting lemma: `safe_float` on a string whose comma-stripped form fails
to parse. -/
theorem safe_float_of_parse_none (s : String)
    (h : pyFloatParse (pystrip (stripCommas s)).data = none) :
    safe_float (some s) = 0 := by
  simp [safe_float, float_py, h]

/-- Claim C4: for every input, `parse_age` extracts the first
decimal-or-integer numeric substring and returns it as a float, and returns
0.0 on failure or non-string input; in particular
`parse_age("25.7 y.o.") = 25.7`, `parse_age("") = 0.0` and
`parse_age(None) = 0.0`. -/
theorem claim_C4 :
    parse_age (some "25.7 y.o.") = 257 / 10
    ∧ parse_age (some "") = 0
    ∧ parse_age none = 0
    ∧ ∀ s : String, (∀ c ∈ s.data, c.isDigit = false) → parse_age (some s) = 0 := by
  refine ⟨?_, rfl, rfl, ?_⟩
  · rw [parse_age_eval "25.7 y.o." ['2', '5'] ['7'] (by decide)]
    norm_num [numValue, show digitsToNat ['2', '5'] = 25 from by decide,
      show digitsToNat ['7'] = 7 from by decide]
  · intro s h
    exact parse_age_of_search_none s (reSearchNum_of_no_digit s.data h)

/-- Witness for claim C4 at a concrete digit-free input. -/
theorem claim_C4_witness : parse_age (some "y.o.") = 0 :=
  claim_C4.2.2.2 "y.o." (by decide)

/-- Claim C10: `parse_age` always returns a non-negative value — the regex
pattern only recognizes unsigned numeric substrings, so a leading minus sign
is ignored; in particular `parse_age("-5 y.o.") = 5.0`. -/
theorem claim_C10 :
    (∀ v : Option String, 0 ≤ parse_age v) ∧ parse_age (some "-5 y.o.") = 5 := by
  constructor
  · intro v
    cases v with
    | none => simp [parse_age]
    | some s =>
      cases h : reSearchNum s.data with
      | none => simp [parse_age, h]
      | some pr =>
        obtain ⟨ip, fp⟩ := pr
        rw [parse_age_eval s ip fp h]
        exact numValue_nonneg ip fp
  · rw [parse_age_eval "-5 y.o." ['5'] [] (by decide)]
    norm_num [numValue, show digitsToNat ['5'] = 5 from by decide,
      show digitsToNat ([] : List Char) = 0 from rfl]

/-- Claim C5: `safe_float` strips thousands-separator commas and parses the
result as a floating-point number, returning 0.0 on any failure without
propagating an error; in particular `safe_float("12,345") = 12345.0` and
`safe_float("abc") = 0.0`. -/
theorem claim_C5 :
    safe_float (some "12,345") = 12345
    ∧ safe_float (some "abc") = 0
    ∧ safe_float none = 0
    ∧ (∀ s : String, float_py (stripCommas s) = none → safe_float (some s) = 0)
    ∧ ∀ (s : String) (q : ℚ), float_py (stripCommas s) = some q → safe_float (some s) = q := by
  refine ⟨?_, ?_, rfl, ?_, ?_⟩
  · rw [safe_float_eval "12,345" ⟨false, ['1', '2', '3', '4', '5'], [], none⟩ (by decide)]
    norm_num [pyFloatVal, numValue,
      show digitsToNat ['1', '2', '3', '4', '5'] = 12345 from by decide,
      show digitsToNat ([] : List Char) = 0 from rfl]
  · exact safe_float_of_parse_none "abc" (by decide)
  · intro s h
    simp [safe_float, h]
  · intro s q h
    simp [safe_float, h]

/-- Witness for claim C5: the parse-success clause applied at a concrete
input. -/
theorem claim_C5_witness : safe_float (some "7") = 7 := by
  have hp : pyFloatParse (pystrip (stripCommas "7")).data
      = some ⟨false, ['7'], [], none⟩ := by decide
  have h : float_py (stripCommas "7") = some 7 := by
    have h7 : pyFloatVal ⟨false, ['7'], [], none⟩ = 7 := by
      norm_num [pyFloatVal, numValue, show digitsToNat ['7'] = 7 from by decide,
        show digitsToNat ([] : List Char) = 0 from rfl]
    simp [float_py, hp, h7]
  exact claim_C5.2.2.2.2 "7" 7 h

/-- Evaluation lemma: `safe_float` on a plain unsigned integer literal (after
comma stripping) is the value of its digits. -/
theorem safe_float_int (s : String) (ip : List Char)
    (h : pyFloatParse (pystrip (stripCommas s)).data = some ⟨false, ip, [], none⟩) :
    safe_float (some s) = (digitsToNat ip : ℚ) := by
  rw [safe_float_eval s _ h]
  norm_num [pyFloatVal, numValue, show digitsToNat ([] : List Char) = 0 from rfl]

/-- Evaluation lemma: `parse_age` on a string whose first numeric substring
is `ip` digits followed by `.0` is the value of `ip`. -/
theorem parse_age_point_zero (s : String) (ip : List Char)
    (h : reSearchNum s.data = some (ip, ['0'])) :
    parse_age (some s) = (digitsToNat ip : ℚ) := by
  rw [parse_age_eval s _ _ h]
  norm_num [numValue, show digitsToNat ['0'] = 0 from by decide]

/-- Claim C3: `classify_team` returns "Contender" if TotalValue > 110000 and
AverageAge > 25, "Rebuild" if TotalValue < 90000 and AverageAge < 24, and
"Tweener" in every other case; in particular (120000, 26) yields
"Contender", (80000, 22) yields "Rebuild" and (100000, 25) yields
"Tweener". -/
theorem claim_C3 :
    (∀ (rows : List MatchRow) (a : ℚ), avgAge rows = some a →
      110000 < totalValue rows → 25 < a → classify_team rows = "Contender")
    ∧ (∀ (rows : List MatchRow) (a : ℚ), avgAge rows = some a →
      totalValue rows < 90000 → a < 24 → classify_team rows = "Rebuild")
    ∧ (∀ (rows : List MatchRow) (a : ℚ), avgAge rows = some a →
      ¬(110000 < totalValue rows ∧ 25 < a) → ¬(totalValue rows < 90000 ∧ a < 24) →
      classify_team rows = "Tweener")
    ∧ classify_team [rowContender] = "Contender"
    ∧ classify_team [rowRebuild] = "Rebuild"
    ∧ classify_team [rowTweener] = "Tweener" := by
  have hv1 : valueNumeric rowContender = 120000 := by
    show safe_float (some "120,000") = 120000
    rw [safe_float_int "120,000" ['1', '2', '0', '0', '0', '0'] (by decide)]
    norm_num [show digitsToNat ['1', '2', '0', '0', '0', '0'] = 120000 from by decide]
  have ha1 : ageNumeric rowContender = 26 := by
    show parse_age (some "26.0 y.o.") = 26
    rw [parse_age_point_zero "26.0 y.o." ['2', '6'] (by decide)]
    norm_num [show digitsToNat ['2', '6'] = 26 from by decide]
  have hv2 : valueNumeric rowRebuild = 80000 := by
    show safe_float (some "80,000") = 80000
    rw [safe_float_int "80,000" ['8', '0', '0', '0', '0'] (by decide)]
    norm_num [show digitsToNat ['8', '0', '0', '0', '0'] = 80000 from by decide]
  have ha2 : ageNumeric rowRebuild = 22 := by
    show parse_age (some "22.0 y.o.") = 22
    rw [parse_age_point_zero "22.0 y.o." ['2', '2'] (by decide)]
    norm_num [show digitsToNat ['2', '2'] = 22 from by decide]
  have hv3 : valueNumeric rowTweener = 100000 := by
    show safe_float (some "100,000") = 100000
    rw [safe_float_int "100,000" ['1', '0', '0', '0', '0', '0'] (by decide)]
    norm_num [show digitsToNat ['1', '0', '0', '0', '0', '0'] = 100000 from by decide]
  have ha3 : ageNumeric rowTweener = 25 := by
    show parse_age (some "25.0 y.o.") = 25
    rw [parse_age_point_zero "25.0 y.o." ['2', '5'] (by decide)]
    norm_num [show digitsToNat ['2', '5'] = 25 from by decide]
  refine ⟨?_, ?_, ?_, ?_, ?_, ?_⟩
  · intro rows a h ht ha
    simp only [classify_team, h]
    rw [if_pos ⟨ht, ha⟩]
  · intro rows a h ht ha
    have hneg : ¬(totalValue rows > 110000 ∧ a > 25) := by
      rintro ⟨h1, -⟩
      linarith
    simp only [classify_team, h]
    rw [if_neg hneg, if_pos ⟨ht, ha⟩]
  · intro rows a h h1 h2
    simp only [classify_team, h]
    rw [if_neg h1, if_neg h2]
  · have hav : avgAge [rowContender] = some 26 := by
      norm_num [avgAge, ha1]
    have htv : totalValue [rowContender] = 120000 := by
      norm_num [totalValue, hv1]
    simp only [classify_team, hav]
    rw [if_pos ⟨by rw [htv]; norm_num, by norm_num⟩]
  · have hav : avgAge [rowRebuild] = some 22 := by
      norm_num [avgAge, ha2]
    have htv : totalValue [rowRebuild] = 80000 := by
      norm_num [totalValue, hv2]
    simp only [classify_team, hav]
    rw [if_neg (by rw [htv]; rintro ⟨h1, -⟩; norm_num at h1),
      if_pos ⟨by rw [htv]; norm_num, by norm_num⟩]
  · have hav : avgAge [rowTweener] = some 25 := by
      norm_num [avgAge, ha3]
    have htv : totalValue [rowTweener] = 100000 := by
      norm_num [totalValue, hv3]
    simp only [classify_team, hav]
    rw [if_neg (by rw [htv]; rintro ⟨h1, -⟩; norm_num at h1),
      if_neg (by rw [htv]; rintro ⟨h1, -⟩; norm_num at h1)]

/-- Witness for claim C3: the Contender clause applied at a concrete roster
of one row worth 115000 with age 27. -/
theorem claim_C3_witness : classify_team [rowContenderW] = "Contender" := by
  have hv : valueNumeric rowContenderW = 115000 := by
    show safe_float (some "115,000") = 115000
    rw [safe_float_int "115,000" ['1', '1', '5', '0', '0', '0'] (by decide)]
    norm_num [show digitsToNat ['1', '1', '5', '0', '0', '0'] = 115000 from by decide]
  have ha : ageNumeric rowContenderW = 27 := by
    show parse_age (some "27.0 y.o.") = 27
    rw [parse_age_point_zero "27.0 y.o." ['2', '7'] (by decide)]
    norm_num [show digitsToNat ['2', '7'] = 27 from by decide]
  exact claim_C3.1 [rowContenderW] 27 (by norm_num [avgAge, ha])
    (by norm_num [totalValue, hv]) (by norm_num)

/-- Claim C9: TotalValue — the sum of the numeric Value over all MatchResult
rows — is invariant under every permutation of the rows. -/
theorem claim_C9 (r1 r2 : List MatchRow) (h : r1.Perm r2) :
    totalValue r1 = totalValue r2 := by
  unfold totalValue
  exact List.Perm.sum_eq (h.map valueNumeric)

/-- Witness for claim C9 at a concrete two-row swap. -/
theorem claim_C9_witness :
    totalValue [rowContender, rowRebuild] = totalValue [rowRebuild, rowContender] :=
  claim_C9 [rowContender, rowRebuild] [rowRebuild, rowContender]
    (List.Perm.swap rowRebuild rowContender [])

/-- Invariant of the `max` fold of `extractOne`: starting from a candidate
`best` that carries its own score, the fold returns a candidate that carries
its own score, is drawn from `best` or the list, scores at least `best`, and
scores at least every listed choice. -/
theorem extractOneAux_spec (scorer : String → String → Nat) (q : String) :
    ∀ (cs : List String) (best : String × Nat), best.2 = scorer q best.1 →
      (extractOneAux scorer q best cs = best ∨ (extractOneAux scorer q best cs).1 ∈ cs)
      ∧ (extractOneAux scorer q best cs).2 = scorer q (extractOneAux scorer q best cs).1
      ∧ best.2 ≤ (extractOneAux scorer q best cs).2
      ∧ ∀ c ∈ cs, scorer q c ≤ (extractOneAux scorer q best cs).2 := by
  intro cs
  induction cs with
  | nil =>
    intro best hb
    refine ⟨Or.inl rfl, ?_, le_refl _, ?_⟩
    · simpa [extractOneAux] using hb
    · intro c hc
      simp at hc
  | cons c cs ih =>
    intro best hb
    by_cases hc : best.2 < scorer q c
    · have key : extractOneAux scorer q best (c :: cs)
          = extractOneAux scorer q (c, scorer q c) cs := by
        simp [extractOneAux, hc]
      obtain ⟨hmem, hval, hle, hall⟩ := ih (c, scorer q c) rfl
      rw [key]
      refine ⟨?_, hval, ?_, ?_⟩
      · rcases hmem with h | h
        · exact Or.inr (by rw [h]; exact List.mem_cons_self c cs)
        · exact Or.inr (List.mem_cons_of_mem c h)
      · exact le_trans (le_of_lt hc) hle
      · intro x hx
        rcases List.mem_cons.mp hx with hxc | hx
        · subst hxc
          exact hle
        · exact hall x hx
    · have key : extractOneAux scorer q best (c :: cs)
          = extractOneAux scorer q best cs := by
        simp [extractOneAux, hc]
      obtain ⟨hmem, hval, hle, hall⟩ := ih best hb
      rw [key]
      refine ⟨?_, hval, hle, ?_⟩
      · rcases hmem with h | h
        · exact Or.inl h
        · exact Or.inr (List.mem_cons_of_mem c h)
      · intro x hx
        rcases List.mem_cons.mp hx with hxc | hx
        · subst hxc
          exact le_trans (not_lt.mp hc) hle
        · exact hall x hx

/-- Specification of `extractOne`: a returned candidate is a listed choice,
the returned score is the score of that candidate, and no listed choice
scores higher. -/
theorem extractOne_spec (scorer : String → String → Nat) (q : String)
    (choices : List String) (bn : String) (sc : Nat)
    (h : extractOne scorer q choices = some (bn, sc)) :
    bn ∈ choices ∧ sc = scorer q bn ∧ ∀ c ∈ choices, scorer q c ≤ sc := by
  cases choices with
  | nil => simp [extractOne] at h
  | cons c cs =>
    have hres : extractOneAux scorer q (c, scorer q c) cs = (bn, sc) := by
      simpa [extractOne] using h
    obtain ⟨hmem, hval, hle, hall⟩ := extractOneAux_spec scorer q cs (c, scorer q c) rfl
    rw [hres] at hmem hval hle hall
    refine ⟨?_, hval, ?_⟩
    · rcases hmem with h1 | h1
      · have : bn = c := congrArg Prod.fst h1
        rw [this]
        exact List.mem_cons_self c cs
      · exact List.mem_cons_of_mem c h1
    · intro x hx
      rcases List.mem_cons.mp hx with hxc | hx
      · subst hxc
        exact hle
      · exact hall x hx

/-- Claim C1: for a roster DisplayName whose NormalizedKey is present in the
mapping built from the valuation list, the Matcher returns the
ValuationRecord stored under that key directly, and the fuzzy-matching
routine is not invoked — the result does not depend on the scorer. -/
theorem claim_C1 (scorer scorer2 : String → String → Nat) (kmap : NameMap)
    (ktc : List ValuationRecord) (p : String) (key : String × String)
    (r : ValuationRecord)
    (hmap : ktc_name_map ktc = Except.ok kmap)
    (hnorm : normalize_name p = some key)
    (hget : dictGet kmap key = some r) :
    matchPlayer scorer kmap ktc p = Except.ok (matchedRow p r)
    ∧ matchPlayer scorer kmap ktc p = matchPlayer scorer2 kmap ktc p := by
  constructor
  · simp [matchPlayer, hnorm, hget]
  · simp [matchPlayer, hnorm, hget]

/-- Witness for claim C1: an exact-key hit returns the stored record under
two different scorers. -/
theorem claim_C1_witness :
    matchPlayer (fun _ _ => 0) [(("justin", "jefferson"), recJJ)] [recJJ] "Justin Jefferson"
      = Except.ok (matchedRow "Justin Jefferson" recJJ)
    ∧ matchPlayer (fun _ _ => 0) [(("justin", "jefferson"), recJJ)] [recJJ] "Justin Jefferson"
      = matchPlayer (fun _ _ => 100) [(("justin", "jefferson"), recJJ)] [recJJ]
          "Justin Jefferson" :=
  claim_C1 (fun _ _ => 0) (fun _ _ => 100) [(("justin", "jefferson"), recJJ)] [recJJ]
    "Justin Jefferson" ("justin", "jefferson") recJJ rfl (by decide) (by decide)

/-- Claim C2: for a roster DisplayName whose NormalizedKey is absent from the
mapping, the Matcher takes the single highest-scoring fuzzy candidate over
all ValuationRecord Names and accepts it if and only if its score is
strictly greater than 80; at a score of at most 80 the result is the
"no match" sentinel with Position/Value/Age absent. -/
theorem claim_C2 (scorer : String → String → Nat) (kmap : NameMap)
    (ktc : List ValuationRecord) (p : String) (key : String × String)
    (bn : String) (sc : Nat)
    (hmap : ktc_name_map ktc = Except.ok kmap)
    (hnorm : normalize_name p = some key)
    (hget : dictGet kmap key = none)
    (hext : extractOne scorer p (ktc.map ValuationRecord.Name) = some (bn, sc)) :
    (bn ∈ ktc.map ValuationRecord.Name ∧ sc = scorer p bn
      ∧ ∀ c ∈ ktc.map ValuationRecord.Name, scorer p c ≤ sc)
    ∧ (80 < sc → ∃ r, ktc.find? (fun x => decide (x.Name = bn)) = some r
        ∧ r.Name = bn ∧ matchPlayer scorer kmap ktc p = Except.ok (matchedRow p r))
    ∧ (sc ≤ 80 → matchPlayer scorer kmap ktc p = Except.ok (noMatchRow p))
    ∧ (noMatchRow p).Position = none ∧ (noMatchRow p).KTC_Value = none
    ∧ (noMatchRow p).Age = none := by
  have hspec := extractOne_spec scorer p (ktc.map ValuationRecord.Name) bn sc hext
  have hne : ktc ≠ [] := by
    intro h
    subst h
    simp [extractOne] at hext
  have hemp : ktc.isEmpty = false := by
    cases ktc with
    | nil => exact absurd rfl hne
    | cons a l => rfl
  refine ⟨hspec, ?_, ?_, rfl, rfl, rfl⟩
  · intro hgt
    obtain ⟨hmem, -, -⟩ := hspec
    obtain ⟨r, hr, hrname⟩ : ∃ r ∈ ktc, r.Name = bn := by
      simpa using hmem
    have hfind : ∃ x, ktc.find? (fun x => decide (x.Name = bn)) = some x := by
      rw [← Option.isSome_iff_exists, List.find?_isSome]
      exact ⟨r, hr, by simp [hrname]⟩
    obtain ⟨r0, hr0⟩ := hfind
    have hr0name : r0.Name = bn := by
      have := List.find?_some hr0
      simpa using this
    have h0 : sc ≠ 0 := by omega
    refine ⟨r0, hr0, hr0name, ?_⟩
    simp [matchPlayer, hnorm, hget, hemp, hext, h0, hgt, hr0]
  · intro hle
    have hcond : ¬(sc ≠ 0 ∧ 80 < sc) := by
      rintro ⟨-, h⟩
      omega
    simp only [matchPlayer, hnorm, hget, hemp, Bool.false_eq_true, if_false, hext]
    rw [if_neg hcond]

/-- Witness for claim C2: the reject clause at a best score of 10. -/
theorem claim_C2_witness :
    matchPlayer (fun _ _ => 10) [(("justin", "jefferson"), recJJ)] [recJJ] "Zzz Aaa"
      = Except.ok (noMatchRow "Zzz Aaa") :=
  (claim_C2 (fun _ _ => 10) [(("justin", "jefferson"), recJJ)] [recJJ] "Zzz Aaa"
    ("zzz", "aaa") "Justin Jefferson" 10 rfl (by decide) (by decide) rfl).2.2.1
    (by norm_num)

/-- Counterexample to claim C6 as stated: with an empty valuation list and a
nonempty roster the matching loop does not produce "no match" rows — the
column access `ktc_df["Name"]` on the empty frame raises `KeyError`,
aborting the run. -/
theorem claim_C6_cex :
    matchLoop (fun _ _ => 0) ["john smith"] [] = Except.error PyErr.keyError
    ∧ matchLoop (fun _ _ => 0) ["john smith"] []
        ≠ Except.ok [noMatchRow "john smith"] :=
  ⟨rfl, fun h => Except.noConfusion h⟩

/-- Claim C6 as amended: with an empty valuation list, an empty roster
yields the empty result list, but any roster player whose name normalizes
raises `KeyError` (the fuzzy fallback accesses the "Name" column of the
empty frame), aborting the run instead of producing "no match" rows. -/
theorem claim_C6_amended :
    (∀ scorer : String → String → Nat, matchLoop scorer [] [] = Except.ok [])
    ∧ ∀ (scorer : String → String → Nat) (p : String) (ps : List String)
        (key : String × String), normalize_name p = some key →
        matchLoop scorer (p :: ps) [] = Except.error PyErr.keyError := by
  constructor
  · intro scorer
    rfl
  · intro scorer p ps key hnorm
    simp [matchLoop, ktc_name_map, matchLoopAux, matchPlayer, hnorm, dictGet]

/-- Witness for the amended claim C6 at a concrete scorer and roster. -/
theorem claim_C6_amended_witness :
    matchLoop (fun _ _ => 7) [] [] = Except.ok []
    ∧ matchLoop (fun _ _ => 7) ["tom brady"] [] = Except.error PyErr.keyError :=
  ⟨claim_C6_amended.1 (fun _ _ => 7),
   claim_C6_amended.2 (fun _ _ => 7) "tom brady" [] ("tom", "brady") (by decide)⟩

/-- Counterexample to claim C7 as stated: on the empty string the normalizer
does not return `("", "")` — `parts[0]` on the empty token list raises
`IndexError`, modelled `none`. -/
theorem claim_C7_cex :
    normalize_name "" = none ∧ normalize_name "" ≠ some ("", "") := by
  decide

/-- Claim C7 as amended: the normalizer trims, lowercases and splits on
whitespace; on at least one token it returns the first token paired with the
last token (or `""` for a single token), but on an input with no
non-whitespace character it raises `IndexError` instead of returning
`("", "")`. -/
theorem claim_C7_amended :
    (∀ name : String, pysplit (pylower (pystrip name)) = [] →
      normalize_name name = none)
    ∧ (∀ name first : String, pysplit (pylower (pystrip name)) = [first] →
      normalize_name name = some (first, ""))
    ∧ ∀ (name first : String) (rest : List String),
        pysplit (pylower (pystrip name)) = first :: rest → (h : rest ≠ []) →
        normalize_name name = some (first, rest.getLast h) := by
  refine ⟨?_, ?_, ?_⟩
  · intro name h
    simp [normalize_name, h]
  · intro name first h
    simp [normalize_name, h]
  · intro name first rest h hne
    simp only [normalize_name, h]
    rw [List.getLastD_eq_getLast?, List.getLast?_eq_getLast rest hne]
    rfl

/-- Witness for the amended claim C7 at a three-token name. -/
theorem claim_C7_amended_witness :
    normalize_name "Patrick Lavon Mahomes" = some ("patrick", "mahomes") :=
  claim_C7_amended.2.2 "Patrick Lavon Mahomes" "patrick" ["lavon", "mahomes"]
    (by decide) (by decide)

/-- A successful `matchPlayer` result carries the roster name it was given:
both the matched row and the sentinel row set `Player` to the input name. -/
theorem matchPlayer_player (scorer : String → String → Nat) (kmap : NameMap)
    (ktc : List ValuationRecord) (p : String) (row : MatchRow)
    (h : matchPlayer scorer kmap ktc p = Except.ok row) : row.Player = p := by
  cases hn : normalize_name p with
  | none =>
    simp [matchPlayer, hn] at h
  | some key =>
    cases hg : dictGet kmap key with
    | some r =>
      simp [matchPlayer, hn, hg] at h
      rw [← h]
      rfl
    | none =>
      by_cases he : ktc.isEmpty = true
      · simp [matchPlayer, hn, hg, he] at h
      · cases hx : extractOne scorer p (ktc.map ValuationRecord.Name) with
        | none =>
          simp [matchPlayer, hn, hg, he, hx] at h
        | some pr =>
          obtain ⟨bn, sc⟩ := pr
          by_cases hc : sc ≠ 0 ∧ 80 < sc
          · cases hf : ktc.find? (fun r => decide (r.Name = bn)) with
            | none =>
              simp only [matchPlayer, hn, hg, he, hx, hf, Bool.false_eq_true,
                if_false] at h
              rw [if_pos hc] at h
              simp at h
            | some r =>
              simp only [matchPlayer, hn, hg, he, hx, hf, Bool.false_eq_true,
                if_false] at h
              rw [if_pos hc] at h
              simp at h
              rw [← h]
              rfl
          · simp only [matchPlayer, hn, hg, he, hx, Bool.false_eq_true,
              if_false] at h
            rw [if_neg hc] at h
            simp at h
            rw [← h]
            rfl

/-- A completed run of the matching loop body returns one row per listed
player, in order: the `Player` column reads back the roster. -/
theorem matchLoopAux_players (scorer : String → String → Nat) (kmap : NameMap)
    (ktc : List ValuationRecord) :
    ∀ (ps : List String) (rs : List MatchRow),
      matchLoopAux scorer kmap ktc ps = Except.ok rs → rs.map MatchRow.Player = ps := by
  intro ps
  induction ps with
  | nil =>
    intro rs h
    simp only [matchLoopAux] at h
    cases h
    rfl
  | cons p ps ih =>
    intro rs h
    simp only [matchLoopAux] at h
    cases hp : matchPlayer scorer kmap ktc p with
    | error e =>
      rw [hp] at h
      simp at h
    | ok row =>
      rw [hp] at h
      cases ha : matchLoopAux scorer kmap ktc ps with
      | error e =>
        rw [ha] at h
        simp at h
      | ok rows =>
        rw [ha] at h
        cases h
        simp [ih rows ha, matchPlayer_player scorer kmap ktc p row hp]

/-- Claim C8, amended to runs that complete without an exception: whenever
the matching loop returns a result list, it holds exactly one MatchResult
per roster player and preserves roster order — the `Player` column read back
is the roster itself.  (As universally stated the claim fails: a blank
roster name, or an empty valuation list reached by a non-exact name, raises
instead, see the counterexample.) -/
theorem claim_C8 (scorer : String → String → Nat) (roster : List String)
    (ktc : List ValuationRecord) (rs : List MatchRow)
    (h : matchLoop scorer roster ktc = Except.ok rs) :
    rs.map MatchRow.Player = roster ∧ rs.length = roster.length := by
  have hmain : rs.map MatchRow.Player = roster := by
    unfold matchLoop at h
    cases hm : ktc_name_map ktc with
    | error e =>
      rw [hm] at h
      simp at h
    | ok kmap =>
      rw [hm] at h
      exact matchLoopAux_players scorer kmap ktc roster rs h
  refine ⟨hmain, ?_⟩
  rw [← hmain]
  simp

/-- Counterexample to claim C8 as stated: a roster holding a blank name
produces no MatchResult at all — `normalize_name` raises `IndexError` and
the run aborts. -/
theorem claim_C8_cex :
    matchLoop (fun _ _ => 0) [""] [recJJ] = Except.error PyErr.indexError
    ∧ matchLoop (fun _ _ => 0) [""] [recJJ] ≠ Except.ok [noMatchRow ""] :=
  ⟨rfl, fun h => Except.noConfusion h⟩

/-- Witness for claim C8 at a concrete completed run. -/
theorem claim_C8_witness :
    ([matchedRow "Justin Jefferson" recJJ].map MatchRow.Player = ["Justin Jefferson"])
    ∧ ([matchedRow "Justin Jefferson" recJJ] : List MatchRow).length
        = (["Justin Jefferson"] : List String).length :=
  claim_C8 (fun _ _ => 0) ["Justin Jefferson"] [recJJ]
    [matchedRow "Justin Jefferson" recJJ] rfl
